import Mathlib

/-!
# libbitcoin-node: executor lifecycle, log handler, observer protocol, channel announcements

A shallow embedding of
* `src/channels/channel_peer.cpp` (the announcement record of a peer channel),
* `console/executor_logging.cpp` (the handler installed by `executor::subscribe_log`),
* `console/executor_runner.cpp` (`executor::do_run`),
* `src/protocols/protocol_observer.cpp` (`protocol_observer`),
* `src/protocols/protocol_header_in_70012.cpp` (`protocol_header_in_70012::complete`),

followed by the properties established about them.
-/

set_option autoImplicit false

namespace libbitcoin
namespace node

/-! ## Shared types -/

/-- The `code` values (std::error_code) that the embedded functions tell apart.
`success` stands for every code whose value is zero, `other n` for every failure
code that none of the embedded functions names. -/
inductive code where
  /-- Any zero code, `error::success`. -/
  | success
  /-- The failure `database::error::flush_lock`. -/
  | flush_lock
  /-- The failure `database::error::integrity`. -/
  | integrity
  /-- The failure `error::suspended_channel`. -/
  | suspended_channel
  /-- Any other failure code. -/
  | other (n : Nat)
  deriving DecidableEq, Repr

/-- The explicit `operator bool` of a code: true exactly for a failure. -/
def code.failed : code → Bool
  | .success => false
  | _ => true

/-- A `hash_digest` is an array of 32 bytes, taken here as the 256-bit number
whose base-256 digits are those bytes; equality is equality of all bytes. -/
abbrev hash_digest := Fin (2 ^ 256)

/-! ## channel_peer -/

/-- The part of `channel_peer` the announcement tracker uses: `announced_`. -/
structure channel_peer where
  announced_ : List hash_digest
  deriving DecidableEq, Repr

namespace channel_peer

/-- A channel whose announcement record is empty. -/
def fresh : channel_peer := ⟨[]⟩

/-- Embedding of `channel_peer::set_announced`: `announced_.push_back(hash)`. -/
def set_announced (c : channel_peer) (hash : hash_digest) : channel_peer :=
  { c with announced_ := c.announced_ ++ [hash] }

/-- Embedding of `std::find(first, last, value)` over a sequence: the index of the
first element equal to `value`, or the length of the sequence (the `end`
iterator) when there is none. -/
def find (l : List hash_digest) (value : hash_digest) : Nat :=
  match l with
  | [] => 0
  | x :: rest => if x = value then 0 else find rest value + 1

/-- Embedding of `channel_peer::was_announced`:
`std::find(begin, end, hash) != end`. -/
def was_announced (c : channel_peer) (hash : hash_digest) : Bool :=
  find c.announced_ hash != c.announced_.length

end channel_peer

/-! ## executor: logging (console/executor_logging.cpp) -/

/-- Exceptions that the embedded statements can raise. -/
inductive exception where
  /-- Raised by `at(i)` of a container when `i` is not below its size. -/
  | out_of_range
  /-- Raised by `std::promise::set_value` on a promise that already holds a value. -/
  | promise_already_satisfied
  deriving DecidableEq, Repr

/-- A `std::promise<code>`: the shared cell (`value`, empty until fulfilled) and a
ghost counter of the `set_value` invocations made on it so far. -/
structure promise where
  value : Option code
  set_value_calls : Nat
  deriving DecidableEq, Repr

namespace promise

/-- A promise as default-constructed: no value, `set_value` never invoked. -/
def empty : promise := ⟨none, 0⟩

/-- Embedding of `std::promise::set_value`: stores the value in an empty cell, and
raises `promise_already_satisfied` (second component) on a fulfilled one. -/
def set_value (p : promise) (ec : code) : promise × Option exception :=
  match p.value with
  | none => (⟨some ec, p.set_value_calls + 1⟩, none)
  | some v => (⟨some v, p.set_value_calls + 1⟩, some exception.promise_already_satisfied)

end promise

/-- Indices of the log levels. They are declared by the network library
(`network::levels`), outside the embedded files; they are numbered here in the
order in which `executor::defined_` lists them. -/
def levels.application : Nat := 0
/-- Level `news`. -/
def levels.news : Nat := 1
/-- Level `session`. -/
def levels.session : Nat := 2
/-- Level `protocol`. -/
def levels.protocol : Nat := 3
/-- Level `proxy`. -/
def levels.proxy : Nat := 4
/-- Level `remote`. -/
def levels.remote : Nat := 5
/-- Level `fault`. -/
def levels.fault : Nat := 6
/-- Level `quitting`. -/
def levels.quitting : Nat := 7
/-- Level `objects`. -/
def levels.objects : Nat := 8
/-- Level `verbose`. -/
def levels.verbose : Nat := 9

/-- Text functions and constants that the log handler uses and that are declared
outside the embedded files: `format_zulu_time` and `serialize` of the system
library, and the strings `BN_NODE_FOOTER`, `BN_NODE_TERMINATE` of localize.hpp. -/
structure externals where
  format_zulu_time : Int → String
  serialize : Nat → String
  BN_NODE_FOOTER : String
  BN_NODE_TERMINATE : String

/-- The members of `executor` that `subscribe_log` and `do_run` read or write:
the toggle table (one entry per level index), the two promises `stopping_` and
`stopped_`, and the text written so far to the log sink (`sink`, the stream
handed to `subscribe_log`) and to the console (`output_`). -/
structure executor where
  toggle_ : List Bool
  stopping_ : promise
  stopped_ : promise
  sink : String
  output_ : String
  deriving DecidableEq, Repr

/-- Embedding of `toggle_.at(level)`: the entry, or `out_of_range`. -/
def at_ (table : List Bool) (level : Nat) : Except exception Bool :=
  match table[level]? with
  | some b => .ok b
  | none => .error exception.out_of_range

/-- The value of `!ec && !toggle_.at(level)`; the right operand is evaluated only
when `ec` is a success code. -/
def not_selected (s : executor) (ec : code) (level : Nat) : Except exception Bool :=
  if ec.failed then .ok false
  else match at_ s.toggle_ level with
    | .ok enabled => .ok (!enabled)
    | .error ex => .error ex

/-- Embedding of the handler that `executor::subscribe_log` passes to
`log_.subscribe_messages`. The result is the executor after the call and either
the returned bool (`true` keeps the subscription, `false` ends it) or the
exception raised. `std::endl` is a newline; `flush` leaves the text unchanged. -/
def log_handler (x : externals) (s : executor) (ec : code) (level : Nat)
    (time : Int) (message : String) : executor × Except exception Bool :=
  if level ≥ s.toggle_.length then
    let text := "Invalid log [" ++ x.serialize level ++ "] : " ++ message
    ({ s with sink := s.sink ++ text, output_ := s.output_ ++ text }, .ok true)
  else
    match not_selected s ec level with
    | .error ex => (s, .error ex)
    | .ok true => (s, .ok true)
    | .ok false =>
      let pfx := x.format_zulu_time time ++ "." ++ x.serialize level ++ " "
      if ec.failed then
        let s1 := { s with
          sink := s.sink ++ (pfx ++ message ++ "\n") ++ (pfx ++ x.BN_NODE_FOOTER ++ "\n")
          output_ := s.output_ ++ (pfx ++ message ++ "\n")
            ++ (pfx ++ x.BN_NODE_FOOTER ++ "\n") ++ (pfx ++ x.BN_NODE_TERMINATE ++ "\n") }
        match s1.stopped_.set_value ec with
        | (p, some ex) => ({ s1 with stopped_ := p }, .error ex)
        | (p, none) => ({ s1 with stopped_ := p }, .ok false)
      else
        ({ s with sink := s.sink ++ (pfx ++ message),
                  output_ := s.output_ ++ (pfx ++ message) }, .ok true)

/-- One log message as delivered to the handler. -/
structure log_message where
  ec : code
  level : Nat
  time : Int
  message : String
  deriving DecidableEq, Repr

/-- The subscription made by `subscribe_log`: the executor, whether the handler
is still subscribed, and the exception a handler call raised, if any. -/
structure subscription where
  exec : executor
  subscribed : Bool
  thrown : Option exception
  deriving DecidableEq, Repr

/-- The subscription right after `subscribe_log` on executor `s`. -/
def subscription.start (s : executor) : subscription := ⟨s, true, none⟩

/-- Delivery of a sequence of log messages through the subscription, as the
logger of the network library does it: the handler is invoked on each message
in order as long as it is subscribed; a handler that returned `false` is not
invoked again, and an exception ends the delivery. -/
def deliver (x : externals) : subscription → List log_message → subscription
  | sub, [] => sub
  | sub, m :: rest =>
    if sub.subscribed && sub.thrown.isNone then
      match log_handler x sub.exec m.ec m.level m.time m.message with
      | (s1, .ok keep) => deliver x ⟨s1, keep, none⟩ rest
      | (s1, .error ex) => ⟨s1, false, some ex⟩
    else sub

/-! ## executor: runner (console/executor_runner.cpp) -/

/-- The localized messages that `do_run` passes to `logger` and `stopper`. -/
inductive text where
  | BN_LOG_INITIALIZE_FAILURE
  | BN_LOG_HEADER
  | BN_NODE_STOPPED
  | BN_NODE_INTERRUPT
  | BN_NETWORK_STARTING
  | BN_NETWORK_STOPPING
  deriving DecidableEq, Repr

/-- The calls `do_run` makes, each with the value it returned where `do_run`
branches on that value. -/
inductive action where
  /-- The call `database::file::create_directory(log.path)`. -/
  | create_directory
  /-- The call `create_log_sink()`; the flag tells whether the stream is good. -/
  | create_log_sink (good : Bool)
  /-- The call `create_event_sink()`; the flag tells whether the stream is good. -/
  | create_event_sink (good : Bool)
  /-- The call `logger(message)`. -/
  | logger (message : text)
  /-- The call `subscribe_log(log)`. -/
  | subscribe_log
  /-- The call `subscribe_events(events)`. -/
  | subscribe_events
  /-- The call `subscribe_capture()`. -/
  | subscribe_capture
  /-- The call `check_store_path()` (`argument = false`) or
  `check_store_path(true)` (`argument = true`), and its result. -/
  | check_store_path (argument : Bool) (result : Bool)
  /-- The call `open_store_coded(true)` and the code it returned. -/
  | open_store_coded (result : code)
  /-- The call `restore_store(true)` and its result. -/
  | restore_store (result : Bool)
  /-- The call `create_store(true)` and its result. -/
  | create_store (result : Bool)
  /-- The call `stopper(message)`. -/
  | stopper (message : text)
  /-- The call `dump_body_sizes()`. -/
  | dump_body_sizes
  /-- The call `dump_records()`. -/
  | dump_records
  /-- The call `dump_buckets()`. -/
  | dump_buckets
  /-- The call `capture_.start()`. -/
  | capture_start
  /-- The call `dump_version()`. -/
  | dump_version
  /-- The call `dump_hardware()`. -/
  | dump_hardware
  /-- The call `dump_options()`. -/
  | dump_options
  /-- The call `metadata_.configured.network.initialize()`. -/
  | network_initialize
  /-- The construction `node_ = std::make_shared<full_node>(...)`. -/
  | make_full_node
  /-- The call `subscribe_connect()`. -/
  | subscribe_connect
  /-- The call `subscribe_close()`. -/
  | subscribe_close
  /-- The call `node_->start(...)`. -/
  | node_start
  /-- The call `stopping_.get_future().wait()`. -/
  | wait
  /-- The assignment `toggle_.at(levels::protocol) = false`. -/
  | toggle_protocol_false
  /-- The call `node_->close()`. -/
  | node_close
  /-- The call `close_store(true)` and its result. -/
  | close_store (result : Bool)
  deriving DecidableEq, Repr

/-- What the calls made by `do_run` answer in one run: whether the configured log
path is empty, whether each sink is good, and the results of the store calls. -/
structure environment where
  log_path_empty : Bool
  create_log_sink : Bool
  create_event_sink : Bool
  check_store_path : Bool
  open_store_coded : code
  restore_store : Bool
  check_store_path_true : Bool
  create_store : Bool
  close_store : Bool
  deriving DecidableEq, Repr

/-- A run of `do_run`: the calls made, in order; the value returned, `none` when
the run does not return; and the exception that left `do_run`, if any. A run
with neither a result nor an exception stays blocked in its last call. -/
structure run where
  trace : List action
  result : Option Bool
  raised : Option exception
  deriving DecidableEq, Repr

/-- The block of `do_run` under `if (check_store_path())` up to the test of
`ec`: the calls made and the final value of the local `ec`. -/
def do_run_open (e : environment) : List action × code :=
  let ec := e.open_store_coded
  if ec = code.flush_lock then
    -- ec = error::success; if (!restore_store(true)) ec = database::error::integrity;
    ([action.open_store_coded ec, action.restore_store e.restore_store],
      if !e.restore_store then code.integrity else code.success)
  else
    ([action.open_store_coded ec], ec)

/-- The calls of `do_run` up to the test of the two sinks: the log directory is
created when a log path is configured, then both sinks are created. -/
def do_run_sinks (e : environment) : List action :=
  (if !e.log_path_empty then [action.create_directory] else [])
    ++ [action.create_log_sink e.create_log_sink,
        action.create_event_sink e.create_event_sink]

/-- The calls of `do_run` between the test of the sinks and the store check. -/
def do_run_subscribe : List action :=
  [action.subscribe_log, action.subscribe_events, action.subscribe_capture,
   action.logger text.BN_LOG_HEADER]

/-- The calls of `do_run` from its start to `check_store_path()`, when both sinks
are good. -/
def do_run_checked (e : environment) : List action :=
  do_run_sinks e ++ do_run_subscribe ++ [action.check_store_path false e.check_store_path]

/-- The calls of `do_run` from the first `dump_body_sizes()` to the wait on
`stopping_`, both included. -/
def do_run_start : List action :=
  [action.dump_body_sizes, action.dump_records, action.dump_buckets,
   action.capture_start, action.dump_version, action.dump_hardware, action.dump_options,
   action.logger text.BN_NODE_INTERRUPT, action.network_initialize, action.make_full_node,
   action.subscribe_connect, action.subscribe_close,
   action.logger text.BN_NETWORK_STARTING, action.node_start, action.wait]

/-- The calls of `do_run` after the wait has returned, up to `close_store(true)`. -/
def do_run_stop (e : environment) : List action :=
  [action.toggle_protocol_false, action.logger text.BN_NETWORK_STOPPING,
   action.node_close, action.dump_body_sizes, action.dump_records,
   action.close_store e.close_store]

/-- The part of `do_run` after the store is ready, from the first `dump_body_sizes()`
to the end; `t` holds the calls made before. The wait returns when `stopping_`
holds a value, and blocks for ever when it never does. The assignment
`toggle_.at(levels::protocol) = false` raises when the table has no such entry. -/
def do_run_ready (e : environment) (s : executor) (t : List action) : run :=
  match s.stopping_.value with
  | none => ⟨t ++ do_run_start, none, none⟩
  | some _ =>
    match at_ s.toggle_ levels.protocol with
    | .error ex => ⟨t ++ do_run_start ++ [action.toggle_protocol_false], none, some ex⟩
    | .ok _ =>
      if !e.close_store then
        ⟨t ++ do_run_start ++ do_run_stop e ++ [action.stopper text.BN_NODE_STOPPED],
          some false, none⟩
      else
        ⟨t ++ do_run_start ++ do_run_stop e ++ [action.stopper text.BN_NODE_STOPPED],
          some true, none⟩

/-- Embedding of `executor::do_run`. `e` gives the answers of the calls made and
`s` the executor's members as the handlers running beside `do_run` leave them;
`do_run` reads `stopping_` of it, in its wait, and the size of `toggle_`. -/
def do_run (e : environment) (s : executor) : run :=
  if !e.create_log_sink || !e.create_event_sink then
    ⟨do_run_sinks e ++ [action.logger text.BN_LOG_INITIALIZE_FAILURE], some false, none⟩
  else
    let t := do_run_checked e
    if e.check_store_path then
      if (do_run_open e).2.failed then
        ⟨t ++ (do_run_open e).1 ++ [action.stopper text.BN_NODE_STOPPED], some false, none⟩
      else do_run_ready e s (t ++ (do_run_open e).1)
    else if !e.check_store_path_true then
      ⟨t ++ [action.check_store_path true e.check_store_path_true,
             action.stopper text.BN_NODE_STOPPED], some false, none⟩
    else if !e.create_store then
      ⟨t ++ [action.check_store_path true e.check_store_path_true,
             action.create_store e.create_store,
             action.stopper text.BN_NODE_STOPPED], some false, none⟩
    else
      do_run_ready e s (t ++ [action.check_store_path true e.check_store_path_true,
        action.create_store e.create_store])

/-! ## protocol_observer (src/protocols/protocol_observer.cpp) -/

/-- Modelled from the spec: the chase events, an enumeration declared in
chase.hpp, outside the embedded files. It is a closed set of tagged values with
at least `suspend` and `stop`, the two that `handle_event` names; `other n`
stands for every other event. -/
inductive chase where
  | suspend
  | stop
  | other (n : Nat)
  deriving DecidableEq, Repr

/-- What `protocol_observer::handle_event` reads and writes: `stopped_` is what
the base `stopped()` reports, and `stops` lists the reasons handed to the base
`stop(ec)`, oldest first. -/
structure protocol_observer where
  stopped_ : Bool
  stops : List code
  deriving DecidableEq, Repr

namespace protocol_observer

/-- The base call `stop(ec)`: the request to stop the channel with reason `ec`. -/
def stop (p : protocol_observer) (ec : code) : protocol_observer :=
  { p with stops := p.stops ++ [ec] }

/-- Embedding of `protocol_observer::handle_event`; the code and the value of the
event are not used by it. The bool returned keeps (`true`) or ends (`false`)
the subscription. -/
def handle_event (p : protocol_observer) (_ec : code) (event_ : chase)
    (_value : Nat) : protocol_observer × Bool :=
  if p.stopped_ then (p, false)
  else match event_ with
    | chase.suspend => (p.stop code.suspended_channel, true)
    | chase.stop => (p, false)
    | _ => (p, true)

end protocol_observer

/-! ## protocol_observer: start, completion and stopping -/

namespace protocol_observer

/-- The calls that `start`, `do_handle_complete` and `stopping` make on the
bases of the class. -/
inductive base_call where
  /-- The call `subscribe_events(BIND(handle_event, ...), BIND(handle_complete, ...))`. -/
  | subscribe_events
  /-- The call `unsubscribe_events()`. -/
  | unsubscribe_events
  /-- The call `protocol::start()`. -/
  | start
  /-- The call `protocol::stopping(ec)`. -/
  | stopping (ec : code)
  deriving DecidableEq, Repr

/-- The observer with, besides the members `handle_event` uses, those that
`start`, `do_handle_complete` and `stopping` read or write through their bases:
`started_` is what the base `started()` reports, and `subscribed_` tells whether
the observer is registered on the chase bus. -/
structure state extends protocol_observer where
  started_ : Bool
  subscribed_ : Bool
  deriving DecidableEq, Repr

/-- Modelled from the spec: `subscribe_events` of the base protocol, defined
outside the embedded files: the observer subscribes to the chase bus. -/
def subscribe_events (p : state) : state :=
  { p with subscribed_ := true }

/-- Modelled from the spec: `unsubscribe_events` of the base protocol, defined
outside the embedded files: the observer is no longer subscribed; unsubscribing
an already-unsubscribed subscription is a no-op. -/
def unsubscribe_events (p : state) : state :=
  { p with subscribed_ := false }

/-- Modelled from the spec: the base `protocol::start()`, defined outside the
embedded files: after it the protocol is started, so that a later `start()` finds
`started()` true. -/
def protocol_start (p : state) : state :=
  { p with started_ := true }

/-- Modelled from the spec: the base stop sequence `protocol::stopping(ec)`,
defined outside the embedded files; it touches none of the members above. -/
def protocol_stopping (p : state) (_ec : code) : state := p

/-- The base `stopped(ec)`, defined outside the embedded files: the channel has
stopped, or `ec` is by itself a stop status. Which codes are stop statuses is
declared outside, hence the parameter `status`. -/
def stopped (status : code → Bool) (p : state) (ec : code) : Bool :=
  p.stopped_ || status ec

/-- Embedding of `protocol_observer::start`: the state after the call and the
base calls made, in order. -/
def start (p : state) : state × List base_call :=
  if p.started_ then (p, [])
  else (protocol_start (subscribe_events p), [base_call.subscribe_events, base_call.start])

/-- Embedding of `protocol_observer::do_handle_complete`. -/
def do_handle_complete (status : code → Bool) (p : state) (ec : code) :
    state × List base_call :=
  if stopped status p ec then (unsubscribe_events p, [base_call.unsubscribe_events])
  else (p, [])

/-- Embedding of `protocol_observer::stopping`. -/
def stopping (p : state) (ec : code) : state × List base_call :=
  (protocol_stopping (unsubscribe_events p) ec,
    [base_call.unsubscribe_events, base_call.stopping ec])

/-- The effect of `n` consecutive calls of `start`: the final state and all the
base calls made, in order. -/
def starts : Nat → state → state × List base_call
  | 0, p => (p, [])
  | n + 1, p => ((starts n (start p).1).1, (start p).2 ++ (starts n (start p).1).2)

end protocol_observer

/-! ## protocol_header_in_70012 (src/protocols/protocol_header_in_70012.cpp) -/

/-- The wire messages the embedded protocols send. -/
inductive messages where
  /-- The message `send_headers`, which has no payload. -/
  | send_headers
  deriving DecidableEq, Repr

/-- What `protocol_header_in_70012::complete` reads and writes: the flag
`subscribed_`, the messages handed to `SEND` (oldest first), the lines handed to
`LOGP` (oldest first), and the text of `authority()`. -/
structure protocol_header_in_70012 where
  subscribed_ : Bool
  sent : List messages
  logged : List String
  authority : String
  deriving DecidableEq, Repr

namespace protocol_header_in_70012

/-- Embedding of `protocol_header_in_70012::complete`. -/
def complete (p : protocol_header_in_70012) : protocol_header_in_70012 :=
  if !p.subscribed_ then
    { p with
      sent := p.sent ++ [messages.send_headers]
      logged := p.logged ++ ["Requested header announcements from [" ++ p.authority ++ "]."]
      subscribed_ := true }
  else p

end protocol_header_in_70012

/-! ## Concrete values used to evaluate the embedded functions -/

/-- A choice of the external text functions: the time and the level are written
in decimal, and the two strings are short fixed texts. -/
def sample_externals : externals :=
  ⟨fun time => toString time, fun level => toString level, "====", "Terminate"⟩

/-- An executor with ten levels, all enabled, both promises empty and no text
written. -/
def sample_executor : executor :=
  ⟨List.replicate 10 true, promise.empty, promise.empty, "", ""⟩

/-- The same executor once `stopping_` holds a value (the wait of `do_run`
returns). -/
def signalled_executor : executor :=
  { sample_executor with stopping_ := ⟨some code.success, 1⟩ }

/-- Answers of a run over an existing store that opens and closes cleanly. -/
def clean_environment : environment :=
  ⟨false, true, true, true, code.success, true, true, true, true⟩

/-- Answers of a run over a flush-locked store whose restore fails. -/
def failed_restore_environment : environment :=
  { clean_environment with open_store_coded := code.flush_lock, restore_store := false }

/-- Answers of a run whose event sink is bad. -/
def bad_sink_environment : environment :=
  { clean_environment with create_event_sink := false }

/-- Answers of a run whose store fails to close. -/
def failed_close_environment : environment :=
  { clean_environment with close_store := false }

/-- Answers of a run that finds no store and cannot prepare the store path. -/
def no_path_environment : environment :=
  { clean_environment with check_store_path := false, check_store_path_true := false }

/-- Answers of a run that finds no store and creates one. -/
def create_environment : environment :=
  { clean_environment with check_store_path := false }

/-- An executor like the sample one, with level `news` disabled. -/
def quiet_executor : executor :=
  { sample_executor with toggle_ := [true, false, true, true, true, true, true, true, true, true] }

/-- An observer on a running channel, neither started nor subscribed. -/
def protocol_observer.idle : protocol_observer.state :=
  { stopped_ := false, stops := [], started_ := false, subscribed_ := false }

/-- A started and subscribed observer whose channel has stopped. -/
def protocol_observer.halted : protocol_observer.state :=
  { stopped_ := true, stops := [], started_ := true, subscribed_ := true }

/-- A header protocol that has not yet subscribed to header announcements. -/
def protocol_header_in_70012.fresh : protocol_header_in_70012 :=
  ⟨false, [], [], "peer"⟩

/-! ## Properties of channel_peer -/

namespace channel_peer

theorem find_ne_length_iff (l : List hash_digest) (h : hash_digest) :
    find l h ≠ l.length ↔ h ∈ l := by
  induction l with
  | nil => simp [find]
  | cons x rest ih =>
    simp only [find]
    by_cases hx : x = h
    · simp [hx]
    · have hx2 : ¬ h = x := fun e => hx e.symm
      simp [hx, hx2, ih]

theorem was_announced_iff_mem (c : channel_peer) (h : hash_digest) :
    was_announced c h = true ↔ h ∈ c.announced_ := by
  simp [was_announced, find_ne_length_iff]

theorem announced_foldl (calls : List hash_digest) (c : channel_peer) :
    (calls.foldl set_announced c).announced_ = c.announced_ ++ calls := by
  induction calls generalizing c with
  | nil => simp
  | cons x rest ih => simp [List.foldl, ih, set_announced]

/-- C1: after any finite sequence of `set_announced` calls on a channel whose
announcement record starts empty, `was_announced h` is true exactly when `h` was
the argument of one of the calls; in particular it is false on the fresh channel,
and two call sequences with the same set of arguments (any order, any repetition)
give the same answer for every hash. -/
theorem was_announced_iff_set_announced (calls : List hash_digest) (h : hash_digest) :
    (was_announced (calls.foldl set_announced fresh) h = true ↔ h ∈ calls)
    ∧ was_announced fresh h = false
    ∧ ∀ calls2 : List hash_digest, (∀ x, x ∈ calls ↔ x ∈ calls2) →
        was_announced (calls2.foldl set_announced fresh) h
          = was_announced (calls.foldl set_announced fresh) h := by
  have key : ∀ l : List hash_digest,
      (was_announced (l.foldl set_announced fresh) h = true ↔ h ∈ l) := by
    intro l
    rw [was_announced_iff_mem, announced_foldl]
    simp [fresh]
  refine ⟨key calls, ?_, ?_⟩
  · simp [was_announced, fresh, find]
  · intro calls2 hsame
    rw [Bool.eq_iff_iff, key calls2, key calls]
    exact (hsame h).symm

/-- C1, at a concrete input: the calls 1, 2, 1 and the calls 2, 1 answer alike. -/
theorem was_announced_iff_set_announced_witness :
    was_announced ([2, 1].foldl set_announced fresh) 2
      = was_announced ([1, 2, 1].foldl set_announced fresh) 2 :=
  (was_announced_iff_set_announced [1, 2, 1] 2).2.2 [2, 1] (fun x => by simp [or_comm])

end channel_peer


/-! ## Properties of the log handler -/

theorem at_ok (table : List Bool) (level : Nat) (h : level < table.length) :
    at_ table level = Except.ok (table.get ⟨level, h⟩) := by
  simp [at_, List.getElem?_eq_getElem h]

theorem not_selected_failed (s : executor) (ec : code) (level : Nat)
    (h : ec.failed = true) : not_selected s ec level = Except.ok false := by
  simp [not_selected, h]

theorem not_selected_success (s : executor) (ec : code) (level : Nat)
    (h : ec.failed = false) (hl : level < s.toggle_.length) :
    not_selected s ec level = Except.ok (!(s.toggle_.get ⟨level, hl⟩)) := by
  simp [not_selected, h, at_ok s.toggle_ level hl]

/-- The handler on a level outside the toggle table. -/
theorem log_handler_invalid (x : externals) (s : executor) (ec : code) (level : Nat)
    (time : Int) (message : String) (h : s.toggle_.length ≤ level) :
    log_handler x s ec level time message =
      ({ s with
          sink := s.sink ++ ("Invalid log [" ++ x.serialize level ++ "] : " ++ message),
          output_ := s.output_ ++ ("Invalid log [" ++ x.serialize level ++ "] : " ++ message) },
        Except.ok true) := by
  simp [log_handler, h]

/-- The handler on a known level and a failure code. -/
theorem log_handler_failed (x : externals) (s : executor) (ec : code) (level : Nat)
    (time : Int) (message : String) (hl : level < s.toggle_.length)
    (hec : ec.failed = true) :
    (log_handler x s ec level time message).1.stopped_ = (s.stopped_.set_value ec).1
    ∧ (log_handler x s ec level time message).2 =
        (match (s.stopped_.set_value ec).2 with
          | some ex => Except.error ex
          | none => Except.ok false) := by
  have hnot : ¬ s.toggle_.length ≤ level := by omega
  simp only [log_handler, ge_iff_le, hnot, if_false, not_selected_failed s ec level hec, hec,
    if_true]
  cases hp : s.stopped_.value with
  | none => simp [promise.set_value, hp]
  | some v => simp [promise.set_value, hp]

/-- The handler on a known level and a success code: nothing but text changes,
and the handler returns `true`. -/
theorem log_handler_success (x : externals) (s : executor) (ec : code) (level : Nat)
    (time : Int) (message : String) (hl : level < s.toggle_.length)
    (hec : ec.failed = false) :
    (log_handler x s ec level time message).1.stopped_ = s.stopped_
    ∧ (log_handler x s ec level time message).2 = Except.ok true := by
  have hnot : ¬ s.toggle_.length ≤ level := by omega
  simp only [log_handler, ge_iff_le, hnot, if_false, not_selected_success s ec level hec hl, hec]
  cases s.toggle_.get ⟨level, hl⟩ <;> simp

/-- The handler never writes `stopping_` nor the toggle table. -/
theorem log_handler_stopping (x : externals) (s : executor) (ec : code) (level : Nat)
    (time : Int) (message : String) :
    (log_handler x s ec level time message).1.stopping_ = s.stopping_
    ∧ (log_handler x s ec level time message).1.toggle_ = s.toggle_ := by
  by_cases h : s.toggle_.length ≤ level
  · rw [log_handler_invalid x s ec level time message h]
    exact ⟨rfl, rfl⟩
  · have hl : level < s.toggle_.length := by omega
    cases hec : ec.failed with
    | true =>
      simp only [log_handler, ge_iff_le, h, if_false, not_selected_failed s ec level hec, hec,
        if_true]
      cases hp : s.stopped_.value <;> simp [promise.set_value, hp]
    | false =>
      simp only [log_handler, ge_iff_le, h, if_false, not_selected_success s ec level hec hl,
        hec]
      cases s.toggle_.get ⟨level, hl⟩ <;> simp


theorem log_handler_other (x : externals) (s : executor) (ec : code)
    (level : Nat) (time : Int) (message : String)
    (h : ¬ (level < s.toggle_.length ∧ ec.failed = true)) :
    (log_handler x s ec level time message).1.stopped_ = s.stopped_
    ∧ (log_handler x s ec level time message).2 = Except.ok true := by
  by_cases hl : s.toggle_.length ≤ level
  · rw [log_handler_invalid x s ec level time message hl]
    exact ⟨rfl, rfl⟩
  · have hl2 : level < s.toggle_.length := by omega
    have hec : ec.failed = false := by
      cases h2 : ec.failed with
      | false => rfl
      | true => exact absurd ⟨hl2, h2⟩ h
    exact log_handler_success x s ec level time message hl2 hec

theorem set_value_empty (p : promise) (ec : code) (h : p.value = none) :
    p.set_value ec = (⟨some ec, p.set_value_calls + 1⟩, none) := by
  simp [promise.set_value, h]

theorem set_value_calls_succ (p : promise) (ec : code) :
    (p.set_value ec).1.set_value_calls = p.set_value_calls + 1 := by
  cases h : p.value <;> simp [promise.set_value, h]

/-- C7: on an executor whose `stopped_` is still unfulfilled, the handler returns
`false` exactly when the level is inside the toggle table and the code is a
failure, and then `stopped_` holds that code after one `set_value`; in every
other case (an out-of-range level with a failure code included) it returns
`true` and leaves `stopped_` as it was. The entries of the toggle table have no
influence on the value returned nor on `stopped_`. -/
theorem log_handler_stops_iff (x : externals) (s : executor) (ec : code) (level : Nat)
    (time : Int) (message : String) (hempty : s.stopped_.value = none) :
    ((log_handler x s ec level time message).2 = Except.ok false
        ↔ (level < s.toggle_.length ∧ ec.failed = true))
    ∧ ((level < s.toggle_.length ∧ ec.failed = true) →
        (log_handler x s ec level time message).1.stopped_
          = ⟨some ec, s.stopped_.set_value_calls + 1⟩)
    ∧ (¬ (level < s.toggle_.length ∧ ec.failed = true) →
        (log_handler x s ec level time message).2 = Except.ok true
        ∧ (log_handler x s ec level time message).1.stopped_ = s.stopped_)
    ∧ (∀ table : List Bool, table.length = s.toggle_.length →
        (log_handler x { s with toggle_ := table } ec level time message).2
          = (log_handler x s ec level time message).2
        ∧ (log_handler x { s with toggle_ := table } ec level time message).1.stopped_
          = (log_handler x s ec level time message).1.stopped_) := by
  have hfault : ∀ s1 : executor, s1.stopped_ = s.stopped_ → level < s1.toggle_.length →
      ec.failed = true →
      (log_handler x s1 ec level time message).2 = Except.ok false
      ∧ (log_handler x s1 ec level time message).1.stopped_
          = ⟨some ec, s.stopped_.set_value_calls + 1⟩ := by
    intro s1 hs hl hec
    obtain ⟨h1, h2⟩ := log_handler_failed x s1 ec level time message hl hec
    rw [hs, set_value_empty s.stopped_ ec hempty] at h1 h2
    exact ⟨h2, h1⟩
  have hother : ∀ s1 : executor, ¬ (level < s1.toggle_.length ∧ ec.failed = true) →
      (log_handler x s1 ec level time message).2 = Except.ok true
      ∧ (log_handler x s1 ec level time message).1.stopped_ = s1.stopped_ := by
    intro s1 hn
    by_cases hl : s1.toggle_.length ≤ level
    · rw [log_handler_invalid x s1 ec level time message hl]
      exact ⟨rfl, rfl⟩
    · have hl2 : level < s1.toggle_.length := by omega
      have hec : ec.failed = false := by
        cases h : ec.failed with
        | false => rfl
        | true => exact absurd ⟨hl2, h⟩ hn
      obtain ⟨h1, h2⟩ := log_handler_success x s1 ec level time message hl2 hec
      exact ⟨h2, h1⟩
  refine ⟨⟨?_, fun h => (hfault s rfl h.1 h.2).1⟩, fun h => (hfault s rfl h.1 h.2).2,
    hother s, ?_⟩
  · intro hret
    by_contra hn
    rw [(hother s hn).1] at hret
    cases hret
  · intro table hlen
    by_cases hc : level < s.toggle_.length ∧ ec.failed = true
    · have h1 := hfault { s with toggle_ := table } rfl (by simpa [hlen] using hc.1) hc.2
      have h2 := hfault s rfl hc.1 hc.2
      exact ⟨h1.1.trans h2.1.symm, h1.2.trans h2.2.symm⟩
    · have h1 := hother { s with toggle_ := table } (by simpa [hlen] using hc)
      have h2 := hother s hc
      exact ⟨h1.1.trans h2.1.symm, h1.2.trans h2.2.symm⟩

/-- C7, at a concrete input: a failure code at level 2 of ten, on the sample
executor. -/
theorem log_handler_stops_iff_witness :
    sample_executor.stopped_.value = none
    ∧ ((log_handler sample_externals sample_executor (code.other 7) 2 0 "x").2
          = Except.ok false ↔ (2 < sample_executor.toggle_.length
            ∧ (code.other 7).failed = true)) :=
  ⟨rfl, (log_handler_stops_iff sample_externals sample_executor (code.other 7) 2 0 "x" rfl).1⟩

/-- C8 as stated fails: a message of level `application`, which is below `fault`,
that carries a failure code makes the handler fulfil `stopped_` with that code
and end the subscription. -/
theorem below_fault_fulfils :
    levels.application < levels.fault
    ∧ levels.application < sample_executor.toggle_.length
    ∧ sample_executor.stopped_.value = none
    ∧ (log_handler sample_externals sample_executor (code.other 1) levels.application 0
        "x").1.stopped_.value = some (code.other 1)
    ∧ (log_handler sample_externals sample_executor (code.other 1) levels.application 0
        "x").2 = Except.ok false := by
  have hl : levels.application < sample_executor.toggle_.length := by decide
  obtain ⟨h1, h2⟩ := log_handler_failed sample_externals sample_executor (code.other 1)
    levels.application 0 "x" hl rfl
  refine ⟨by decide, hl, rfl, ?_, ?_⟩
  · rw [h1]; rfl
  · rw [h2]; rfl

/-- C8, amended: a log message that carries no failure code, or whose level is
outside the toggle table, never fulfils `stopped_`, whatever its level (a level
below `fault` included): `stopped_` is left as it was, with no `set_value`. -/
theorem log_handler_no_code_keeps_stopped (x : externals) (s : executor) (ec : code)
    (level : Nat) (time : Int) (message : String)
    (h : ec.failed = false ∨ s.toggle_.length ≤ level) :
    (log_handler x s ec level time message).1.stopped_ = s.stopped_
    ∧ (log_handler x s ec level time message).2 = Except.ok true := by
  by_cases hl : s.toggle_.length ≤ level
  · rw [log_handler_invalid x s ec level time message hl]
    exact ⟨rfl, rfl⟩
  · have hl2 : level < s.toggle_.length := by omega
    have hec : ec.failed = false := by
      cases h with
      | inl h => exact h
      | inr h => exact absurd h hl
    exact log_handler_success x s ec level time message hl2 hec

/-- C8, amended, at a concrete input: a success code at level `application`. -/
theorem log_handler_no_code_keeps_stopped_witness :
    (code.success.failed = false ∨ sample_executor.toggle_.length ≤ levels.application)
    ∧ (log_handler sample_externals sample_executor code.success levels.application 0
        "x").1.stopped_ = sample_executor.stopped_ :=
  ⟨Or.inl rfl, (log_handler_no_code_keeps_stopped sample_externals sample_executor
    code.success levels.application 0 "x" (Or.inl rfl)).1⟩


/-! ## Delivery through the log subscription -/

/-- A handler call that returns `true` leaves `stopped_` as it was; any call adds
at most one `set_value`; and on an unfulfilled `stopped_` no call raises. -/
theorem log_handler_effect (x : externals) (s : executor) (ec : code) (level : Nat)
    (time : Int) (message : String) :
    ((log_handler x s ec level time message).2 = Except.ok true →
        (log_handler x s ec level time message).1.stopped_ = s.stopped_)
    ∧ (log_handler x s ec level time message).1.stopped_.set_value_calls
        ≤ s.stopped_.set_value_calls + 1
    ∧ (s.stopped_.value = none →
        ∀ ex, (log_handler x s ec level time message).2 ≠ Except.error ex) := by
  by_cases hc : level < s.toggle_.length ∧ ec.failed = true
  · obtain ⟨h1, h2⟩ := log_handler_failed x s ec level time message hc.1 hc.2
    refine ⟨?_, ?_, ?_⟩
    · intro hret
      rw [h2] at hret
      cases hp : s.stopped_.value <;> simp [promise.set_value, hp] at hret
    · rw [h1, set_value_calls_succ]
    · intro hempty ex
      rw [h2, set_value_empty s.stopped_ ec hempty]
      simp
  · have h := log_handler_other x s ec level time message hc
    refine ⟨fun _ => h.1, ?_, ?_⟩
    · rw [h.1]; omega
    · intro _ ex
      rw [h.2]
      simp

theorem deliver_inactive (x : externals) (sub : subscription) (msgs : List log_message)
    (h : (sub.subscribed && sub.thrown.isNone) = false) : deliver x sub msgs = sub := by
  cases msgs with
  | nil => rfl
  | cons m rest => simp [deliver, h]

/-- C6: whatever sequence of log messages is delivered through the subscription
made by `subscribe_log` (a handler that returned `false` is not invoked again),
the handler makes at most one `set_value` on `stopped_`; and when `stopped_` was
unfulfilled at subscription, no delivery raises `promise_already_satisfied`, so
a second fault message never reaches a second `set_value`. -/
theorem stopped_set_at_most_once (x : externals) (s : executor) (msgs : List log_message) :
    (deliver x (subscription.start s) msgs).exec.stopped_.set_value_calls
        ≤ s.stopped_.set_value_calls + 1
    ∧ (s.stopped_.value = none → (deliver x (subscription.start s) msgs).thrown = none) := by
  induction msgs generalizing s with
  | nil => simp [deliver, subscription.start]
  | cons m rest ih =>
    obtain ⟨htrue, hcalls, hraise⟩ := log_handler_effect x s m.ec m.level m.time m.message
    rcases hres : log_handler x s m.ec m.level m.time m.message with ⟨s1, r⟩
    rw [hres] at htrue hcalls hraise
    simp only at htrue hcalls hraise
    cases r with
    | error ex =>
      simp only [deliver, subscription.start, Option.isNone_none, Bool.and_self, if_true, hres]
      refine ⟨hcalls, fun hempty => absurd rfl (hraise hempty ex)⟩
    | ok keep =>
      cases keep with
      | true =>
        have hst : s1.stopped_ = s.stopped_ := htrue rfl
        have := ih s1
        simp only [deliver, subscription.start, Option.isNone_none, Bool.and_self, if_true, hres]
        simp only [subscription.start, hst] at this
        exact this
      | false =>
        simp only [deliver, subscription.start, Option.isNone_none, Bool.and_self, if_true, hres]
        rw [deliver_inactive x _ rest (by simp)]
        exact ⟨hcalls, fun _ => rfl⟩

/-- C6, at a concrete input: two fault messages in a row on the sample executor. -/
theorem stopped_set_at_most_once_witness :
    sample_executor.stopped_.value = none
    ∧ (deliver sample_externals (subscription.start sample_executor)
        [⟨code.other 1, levels.fault, 0, "a"⟩, ⟨code.other 2, levels.fault, 1, "b"⟩]).thrown
        = none :=
  ⟨rfl, (stopped_set_at_most_once sample_externals sample_executor
    [⟨code.other 1, levels.fault, 0, "a"⟩, ⟨code.other 2, levels.fault, 1, "b"⟩]).2 rfl⟩


/-! ## The paths of do_run -/

/-- The three outcomes of the open block. -/
theorem do_run_open_cases (e : environment) :
    (e.open_store_coded = code.flush_lock ∧ e.restore_store = true
      ∧ do_run_open e = ([action.open_store_coded code.flush_lock,
          action.restore_store true], code.success))
    ∨ (e.open_store_coded = code.flush_lock ∧ e.restore_store = false
      ∧ do_run_open e = ([action.open_store_coded code.flush_lock,
          action.restore_store false], code.integrity))
    ∨ (e.open_store_coded ≠ code.flush_lock
      ∧ do_run_open e = ([action.open_store_coded e.open_store_coded],
          e.open_store_coded)) := by
  by_cases h : e.open_store_coded = code.flush_lock
  · cases hr : e.restore_store <;> simp [do_run_open, h, hr]
  · simp [do_run_open, h]

/-- The six paths of `do_run` up to the point where the store is ready. -/
theorem do_run_cases (e : environment) (s : executor) :
    ((e.create_log_sink = false ∨ e.create_event_sink = false)
      ∧ do_run e s
        = ⟨do_run_sinks e ++ [action.logger text.BN_LOG_INITIALIZE_FAILURE], some false, none⟩)
    ∨ (e.create_log_sink = true ∧ e.create_event_sink = true ∧ e.check_store_path = true
      ∧ (do_run_open e).2.failed = true
      ∧ do_run e s = ⟨do_run_checked e ++ (do_run_open e).1
          ++ [action.stopper text.BN_NODE_STOPPED], some false, none⟩)
    ∨ (e.create_log_sink = true ∧ e.create_event_sink = true ∧ e.check_store_path = true
      ∧ (do_run_open e).2.failed = false
      ∧ do_run e s = do_run_ready e s (do_run_checked e ++ (do_run_open e).1))
    ∨ (e.create_log_sink = true ∧ e.create_event_sink = true ∧ e.check_store_path = false
      ∧ e.check_store_path_true = false
      ∧ do_run e s = ⟨do_run_checked e ++ [action.check_store_path true false,
          action.stopper text.BN_NODE_STOPPED], some false, none⟩)
    ∨ (e.create_log_sink = true ∧ e.create_event_sink = true ∧ e.check_store_path = false
      ∧ e.check_store_path_true = true ∧ e.create_store = false
      ∧ do_run e s = ⟨do_run_checked e ++ [action.check_store_path true true,
          action.create_store false, action.stopper text.BN_NODE_STOPPED], some false, none⟩)
    ∨ (e.create_log_sink = true ∧ e.create_event_sink = true ∧ e.check_store_path = false
      ∧ e.check_store_path_true = true ∧ e.create_store = true
      ∧ do_run e s = do_run_ready e s (do_run_checked e
          ++ [action.check_store_path true true, action.create_store true])) := by
  cases hb : e.create_log_sink
  · left; simp [do_run, hb]
  cases hc : e.create_event_sink
  · left; simp [do_run, hc]
  right
  cases hd : e.check_store_path
  · right; right
    cases hct : e.check_store_path_true
    · left; simp [do_run, hb, hc, hd, hct]
    · right
      cases hcs : e.create_store
      · left; simp [do_run, hb, hc, hd, hct, hcs]
      · right; simp [do_run, hb, hc, hd, hct, hcs]
  · cases hf : (do_run_open e).2.failed
    · right; left; simp [do_run, hb, hc, hd, hf]
    · left; simp [do_run, hb, hc, hd, hf]


/-- The three ways the part after store readiness goes: blocked in the wait,
left by `out_of_range` at the toggle assignment, or through to the end with the
result of `close_store`. -/
theorem do_run_ready_cases (e : environment) (s : executor) (t : List action) :
    (s.stopping_.value = none ∧ do_run_ready e s t = ⟨t ++ do_run_start, none, none⟩)
    ∨ ((∃ v, s.stopping_.value = some v) ∧ s.toggle_.length ≤ levels.protocol
      ∧ do_run_ready e s t = ⟨t ++ do_run_start ++ [action.toggle_protocol_false], none,
          some exception.out_of_range⟩)
    ∨ ((∃ v, s.stopping_.value = some v) ∧ levels.protocol < s.toggle_.length
      ∧ do_run_ready e s t = ⟨t ++ do_run_start ++ do_run_stop e
          ++ [action.stopper text.BN_NODE_STOPPED], some e.close_store, none⟩) := by
  cases hs : s.stopping_.value with
  | none => left; simp [do_run_ready, hs]
  | some v =>
    right
    by_cases hl : levels.protocol < s.toggle_.length
    · right
      cases hc : e.close_store <;> simp [do_run_ready, hs, hc, at_ok s.toggle_ _ hl, hl]
    · left
      have hl2 : s.toggle_.length ≤ levels.protocol := by omega
      simp [do_run_ready, hs, at_, List.getElem?_eq_none hl2, hl2]

theorem failed_eq_false (ec : code) (h : ec.failed = false) : ec = code.success := by
  cases ec <;> simp [code.failed] at h ⊢

/-- Every run of `do_run` is one of: the abort on a bad sink; an abort in the
store block (`st` lists the store calls made); or, the store being ready, a run
blocked in the wait, a run left at the toggle assignment, or a run through to
`close_store`. -/
theorem do_run_paths (e : environment) (s : executor) :
    ((e.create_log_sink = false ∨ e.create_event_sink = false)
      ∧ do_run e s
        = ⟨do_run_sinks e ++ [action.logger text.BN_LOG_INITIALIZE_FAILURE], some false, none⟩)
    ∨ (e.create_log_sink = true ∧ e.create_event_sink = true ∧ ∃ st,
        ((e.check_store_path = true ∧ e.open_store_coded ≠ code.flush_lock
            ∧ e.open_store_coded.failed = true
            ∧ st = [action.open_store_coded e.open_store_coded])
          ∨ (e.check_store_path = true ∧ e.open_store_coded = code.flush_lock
            ∧ e.restore_store = false
            ∧ st = [action.open_store_coded code.flush_lock, action.restore_store false])
          ∨ (e.check_store_path = false ∧ e.check_store_path_true = false
            ∧ st = [action.check_store_path true false])
          ∨ (e.check_store_path = false ∧ e.check_store_path_true = true
            ∧ e.create_store = false
            ∧ st = [action.check_store_path true true, action.create_store false]))
        ∧ do_run e s = ⟨do_run_checked e ++ st ++ [action.stopper text.BN_NODE_STOPPED],
            some false, none⟩)
    ∨ (e.create_log_sink = true ∧ e.create_event_sink = true ∧ ∃ st,
        ((e.check_store_path = true ∧ e.open_store_coded = code.success
            ∧ st = [action.open_store_coded code.success])
          ∨ (e.check_store_path = true ∧ e.open_store_coded = code.flush_lock
            ∧ e.restore_store = true
            ∧ st = [action.open_store_coded code.flush_lock, action.restore_store true])
          ∨ (e.check_store_path = false ∧ e.check_store_path_true = true
            ∧ e.create_store = true
            ∧ st = [action.check_store_path true true, action.create_store true]))
        ∧ ((s.stopping_.value = none
            ∧ do_run e s = ⟨do_run_checked e ++ st ++ do_run_start, none, none⟩)
          ∨ ((∃ v, s.stopping_.value = some v) ∧ s.toggle_.length ≤ levels.protocol
            ∧ do_run e s = ⟨do_run_checked e ++ st ++ do_run_start
                ++ [action.toggle_protocol_false], none, some exception.out_of_range⟩)
          ∨ ((∃ v, s.stopping_.value = some v) ∧ levels.protocol < s.toggle_.length
            ∧ do_run e s = ⟨do_run_checked e ++ st ++ do_run_start ++ do_run_stop e
                ++ [action.stopper text.BN_NODE_STOPPED], some e.close_store, none⟩))) := by
  rcases do_run_cases e s with ⟨hbad, h⟩ | ⟨hb, hc, hd, hf, h⟩ | ⟨hb, hc, hd, hf, h⟩ |
    ⟨hb, hc, hd, hct, h⟩ | ⟨hb, hc, hd, hct, hcs, h⟩ | ⟨hb, hc, hd, hct, hcs, h⟩
  · exact Or.inl ⟨hbad, h⟩
  · refine Or.inr (Or.inl ⟨hb, hc, (do_run_open e).1, ?_, h⟩)
    rcases do_run_open_cases e with ⟨ho, hr, h2⟩ | ⟨ho, hr, h2⟩ | ⟨ho, h2⟩
    · rw [h2] at hf; simp [code.failed] at hf
    · exact Or.inr (Or.inl ⟨hd, ho, hr, by rw [h2]⟩)
    · rw [h2] at hf
      exact Or.inl ⟨hd, ho, hf, by rw [h2]⟩
  · refine Or.inr (Or.inr ⟨hb, hc, (do_run_open e).1, ?_, ?_⟩)
    · rcases do_run_open_cases e with ⟨ho, hr, h2⟩ | ⟨ho, hr, h2⟩ | ⟨ho, h2⟩
      · exact Or.inr (Or.inl ⟨hd, ho, hr, by rw [h2]⟩)
      · rw [h2] at hf; simp [code.failed] at hf
      · rw [h2] at hf
        have hs : e.open_store_coded = code.success := failed_eq_false _ hf
        exact Or.inl ⟨hd, hs, by rw [h2, hs]⟩
    · rw [h]
      exact do_run_ready_cases e s _
  · exact Or.inr (Or.inl ⟨hb, hc, _, Or.inr (Or.inr (Or.inl ⟨hd, hct, rfl⟩)),
      by rw [h]; simp⟩)
  · exact Or.inr (Or.inl ⟨hb, hc, _, Or.inr (Or.inr (Or.inr ⟨hd, hct, hcs, rfl⟩)),
      by rw [h]; simp⟩)
  · refine Or.inr (Or.inr ⟨hb, hc, _, Or.inr (Or.inr ⟨hd, hct, hcs, rfl⟩), ?_⟩)
    rw [h]
    exact do_run_ready_cases e s _

theorem mem_do_run_sinks (e : environment) (a : action) :
    a ∈ do_run_sinks e ↔
      (a = action.create_directory ∧ e.log_path_empty = false)
      ∨ a = action.create_log_sink e.create_log_sink
      ∨ a = action.create_event_sink e.create_event_sink := by
  cases h : e.log_path_empty <;> simp [do_run_sinks, h]

theorem mem_do_run_checked (e : environment) (a : action) :
    a ∈ do_run_checked e ↔
      (a = action.create_directory ∧ e.log_path_empty = false)
      ∨ a = action.create_log_sink e.create_log_sink
      ∨ a = action.create_event_sink e.create_event_sink
      ∨ a = action.subscribe_log ∨ a = action.subscribe_events
      ∨ a = action.subscribe_capture ∨ a = action.logger text.BN_LOG_HEADER
      ∨ a = action.check_store_path false e.check_store_path := by
  cases h : e.log_path_empty <;>
    simp [do_run_checked, do_run_sinks, do_run_subscribe, h, or_assoc]

/-! ## Properties of do_run -/

/-- C2: `do_run` returns `true` exactly when the run reached `close_store` and
`close_store` reported a clean close; a run in which a sink is bad, the store
open fails with a code other than flush-lock, the restore fails, the store
creation fails or the store close fails returns `false`. -/
theorem do_run_true_iff_clean_close (e : environment) (s : executor) :
    ((do_run e s).result = some true ↔ action.close_store true ∈ (do_run e s).trace)
    ∧ (action.create_log_sink false ∈ (do_run e s).trace
        ∨ action.create_event_sink false ∈ (do_run e s).trace →
        (do_run e s).result = some false)
    ∧ (∀ ec, action.open_store_coded ec ∈ (do_run e s).trace → ec.failed = true →
        ec ≠ code.flush_lock → (do_run e s).result = some false)
    ∧ (action.restore_store false ∈ (do_run e s).trace → (do_run e s).result = some false)
    ∧ (action.create_store false ∈ (do_run e s).trace → (do_run e s).result = some false)
    ∧ (action.close_store false ∈ (do_run e s).trace → (do_run e s).result = some false) := by
  rcases do_run_paths e s with ⟨hbad, h⟩ | ⟨hb, hc, st, hst, h⟩ | ⟨hb, hc, st, hst, h⟩
  · rw [h]
    simp [mem_do_run_sinks]
  · rw [h]
    rcases hst with ⟨hd, ho, hf, rfl⟩ | ⟨hd, ho, hr, rfl⟩ | ⟨hd, hct, rfl⟩ |
      ⟨hd, hct, hcs, rfl⟩ <;> simp [mem_do_run_checked]
  · rcases h with ⟨hs, h⟩ | ⟨hs, hl, h⟩ | ⟨hs, hl, h⟩ <;> rw [h] <;>
    rcases hst with ⟨hd, ho, rfl⟩ | ⟨hd, ho, hr, rfl⟩ | ⟨hd, hct, hcs, rfl⟩ <;>
    cases hcl : e.close_store <;>
    simp [mem_do_run_checked, do_run_start, do_run_stop, hb, hc, hcl, code.failed]


/-- C2, at concrete inputs: the clean run returns `true`, and the same run with a
failing `close_store` returns `false`. -/
theorem do_run_true_iff_clean_close_witness :
    (do_run clean_environment signalled_executor).result = some true
    ∧ (do_run failed_close_environment signalled_executor).result
        = some false :=
  ⟨(do_run_true_iff_clean_close clean_environment signalled_executor).1.2 (by decide),
   (do_run_true_iff_clean_close failed_close_environment
      signalled_executor).2.2.2.2.2 (by decide)⟩

/-- When `a` does not occur in `l1`, an occurrence of `a` in `l1 ++ l2` lies in
`l2`, and all of `l1` comes before it. -/
theorem split_after (l1 l2 pre post : List action) (a : action)
    (h : l1 ++ l2 = pre ++ a :: post) (hn : a ∉ l1) :
    ∃ m, pre = l1 ++ m ∧ l2 = m ++ a :: post := by
  rcases List.append_eq_append_iff.mp h with ⟨m, hm1, hm2⟩ | ⟨m, hm1, hm2⟩
  · exact ⟨m, hm1, hm2⟩
  · cases m with
    | nil =>
      refine ⟨[], ?_, ?_⟩
      · simpa using hm1.symm
      · simpa using hm2.symm
    | cons b rest =>
      simp only [List.cons_append, List.cons.injEq] at hm2
      exfalso
      apply hn
      rw [hm1, hm2.1]
      simp

/-- C3: in every run of `do_run`, (a) what precedes `node_->start` contains a
successful open, or a flush-locked open with a successful restore, or a
successful create; and (b) what precedes `close_store` contains `node_->close`.
The executor `s`, hence the value held by `stopping_`, is arbitrary. -/
theorem do_run_order (e : environment) (s : executor) :
    (∀ pre post, (do_run e s).trace = pre ++ action.node_start :: post →
        action.open_store_coded code.success ∈ pre
        ∨ (action.open_store_coded code.flush_lock ∈ pre ∧ action.restore_store true ∈ pre)
        ∨ action.create_store true ∈ pre)
    ∧ (∀ pre post r, (do_run e s).trace = pre ++ action.close_store r :: post →
        action.node_close ∈ pre) := by
  rcases do_run_paths e s with ⟨hbad, h⟩ | ⟨hb, hc, st, hst, h⟩ | ⟨hb, hc, st, hst, h⟩
  · -- no start and no close on this path
    constructor
    · intro pre post ht
      have hmem : action.node_start ∈ (do_run e s).trace := by rw [ht]; simp
      rw [h] at hmem
      simp [mem_do_run_sinks] at hmem
    · intro pre post r ht
      have hmem : action.close_store r ∈ (do_run e s).trace := by rw [ht]; simp
      rw [h] at hmem
      simp [mem_do_run_sinks] at hmem
  · constructor
    · intro pre post ht
      have hmem : action.node_start ∈ (do_run e s).trace := by rw [ht]; simp
      rw [h] at hmem
      rcases hst with ⟨hd, ho, hf, rfl⟩ | ⟨hd, ho, hr, rfl⟩ | ⟨hd, hct, rfl⟩ |
        ⟨hd, hct, hcs, rfl⟩ <;> simp [mem_do_run_checked] at hmem
    · intro pre post r ht
      have hmem : action.close_store r ∈ (do_run e s).trace := by rw [ht]; simp
      rw [h] at hmem
      rcases hst with ⟨hd, ho, hf, rfl⟩ | ⟨hd, ho, hr, rfl⟩ | ⟨hd, hct, rfl⟩ |
        ⟨hd, hct, hcs, rfl⟩ <;> simp [mem_do_run_checked] at hmem
  · have hstart : ∀ rest pre post,
        (do_run_checked e ++ st) ++ (do_run_start ++ rest) = pre ++ action.node_start :: post →
        action.open_store_coded code.success ∈ pre
        ∨ (action.open_store_coded code.flush_lock ∈ pre ∧ action.restore_store true ∈ pre)
        ∨ action.create_store true ∈ pre := by
      intro rest pre post ht
      have hn : action.node_start ∉ do_run_checked e ++ st := by
        rcases hst with ⟨hd, ho, rfl⟩ | ⟨hd, ho, hr, rfl⟩ | ⟨hd, hct, hcs, rfl⟩ <;>
          simp [mem_do_run_checked]
      obtain ⟨m, hm, _⟩ := split_after _ _ pre post _ ht hn
      rw [hm]
      rcases hst with ⟨hd, ho, rfl⟩ | ⟨hd, ho, hr, rfl⟩ | ⟨hd, hct, hcs, rfl⟩ <;> simp
    rcases h with ⟨hs, h⟩ | ⟨hs, hl, h⟩ | ⟨hs, hl, h⟩
    · constructor
      · intro pre post ht
        rw [h] at ht
        exact hstart [] pre post (by simpa using ht)
      · intro pre post r ht
        have hmem : action.close_store r ∈ (do_run e s).trace := by rw [ht]; simp
        rw [h] at hmem
        rcases hst with ⟨hd, ho, rfl⟩ | ⟨hd, ho, hr, rfl⟩ | ⟨hd, hct, hcs, rfl⟩ <;>
          simp [mem_do_run_checked, do_run_start] at hmem
    · constructor
      · intro pre post ht
        rw [h] at ht
        exact hstart [action.toggle_protocol_false] pre post (by simpa using ht)
      · intro pre post r ht
        have hmem : action.close_store r ∈ (do_run e s).trace := by rw [ht]; simp
        rw [h] at hmem
        rcases hst with ⟨hd, ho, rfl⟩ | ⟨hd, ho, hr, rfl⟩ | ⟨hd, hct, hcs, rfl⟩ <;>
          simp [mem_do_run_checked, do_run_start] at hmem
    · constructor
      · intro pre post ht
        rw [h] at ht
        exact hstart (do_run_stop e ++ [action.stopper text.BN_NODE_STOPPED]) pre post
          (by simpa using ht)
      · intro pre post r ht
        rw [h] at ht
        have ht2 : (do_run_checked e ++ st ++ do_run_start
              ++ [action.toggle_protocol_false, action.logger text.BN_NETWORK_STOPPING,
                  action.node_close, action.dump_body_sizes, action.dump_records])
            ++ [action.close_store e.close_store, action.stopper text.BN_NODE_STOPPED]
            = pre ++ action.close_store r :: post := by
          rw [← ht]; simp [do_run_stop]
        have hn : action.close_store r ∉ do_run_checked e ++ st ++ do_run_start
              ++ [action.toggle_protocol_false, action.logger text.BN_NETWORK_STOPPING,
                  action.node_close, action.dump_body_sizes, action.dump_records] := by
          rcases hst with ⟨hd, ho, rfl⟩ | ⟨hd, ho, hr, rfl⟩ | ⟨hd, hct, hcs, rfl⟩ <;>
            simp [mem_do_run_checked, do_run_start]
        obtain ⟨m, hm, _⟩ := split_after _ _ pre post _ ht2 hn
        rw [hm]
        simp

/-- C3, at a concrete input: the clean run, cut at `node_->start` and at
`close_store`. -/
theorem do_run_order_witness :
    (action.open_store_coded code.success ∈ do_run_checked clean_environment
          ++ [action.open_store_coded code.success] ++ do_run_start.take 13
      ∨ (action.open_store_coded code.flush_lock ∈ do_run_checked clean_environment
          ++ [action.open_store_coded code.success] ++ do_run_start.take 13
        ∧ action.restore_store true ∈ do_run_checked clean_environment
          ++ [action.open_store_coded code.success] ++ do_run_start.take 13)
      ∨ action.create_store true ∈ do_run_checked clean_environment
          ++ [action.open_store_coded code.success] ++ do_run_start.take 13)
    ∧ action.node_close ∈ do_run_checked clean_environment
          ++ [action.open_store_coded code.success] ++ do_run_start
          ++ (do_run_stop clean_environment).take 5 :=
  ⟨(do_run_order clean_environment signalled_executor).1
      (do_run_checked clean_environment ++ [action.open_store_coded code.success]
        ++ do_run_start.take 13)
      (action.wait :: do_run_stop clean_environment
        ++ [action.stopper text.BN_NODE_STOPPED]) (by decide),
   (do_run_order clean_environment signalled_executor).2
      (do_run_checked clean_environment ++ [action.open_store_coded code.success]
        ++ do_run_start ++ (do_run_stop clean_environment).take 5)
      [action.stopper text.BN_NODE_STOPPED] true (by decide)⟩


/-- C4: when `open_store_coded` was called and returned flush-lock, `do_run`
called `restore_store`; if the restore succeeded the local code is success and
the run goes on to construct the node and start the network; if it failed the
local code is `database::error::integrity`, the run returns `false`, and the
node is neither constructed nor started. -/
theorem do_run_flush_lock (e : environment) (s : executor)
    (h : action.open_store_coded code.flush_lock ∈ (do_run e s).trace) :
    action.restore_store e.restore_store ∈ (do_run e s).trace
    ∧ (e.restore_store = true →
        (do_run_open e).2 = code.success
        ∧ action.make_full_node ∈ (do_run e s).trace
        ∧ action.node_start ∈ (do_run e s).trace)
    ∧ (e.restore_store = false →
        (do_run_open e).2 = code.integrity
        ∧ (do_run e s).result = some false
        ∧ action.make_full_node ∉ (do_run e s).trace
        ∧ action.node_start ∉ (do_run e s).trace) := by
  rcases do_run_paths e s with ⟨hbad, hrun⟩ | ⟨hb, hc, st, hst, hrun⟩ |
    ⟨hb, hc, st, hst, hrun⟩
  · rw [hrun] at h
    simp [mem_do_run_sinks] at h
  · rw [hrun] at h ⊢
    rcases hst with ⟨hd, ho, hf, rfl⟩ | ⟨hd, ho, hr, rfl⟩ | ⟨hd, hct, rfl⟩ |
      ⟨hd, hct, hcs, rfl⟩
    · simp [mem_do_run_checked] at h
      exact absurd h.symm ho
    · simp [mem_do_run_checked, hr, do_run_open, ho]
    · simp [mem_do_run_checked] at h
    · simp [mem_do_run_checked] at h
  · rcases hst with ⟨hd, ho, rfl⟩ | ⟨hd, ho, hr, rfl⟩ | ⟨hd, hct, hcs, rfl⟩
    · rcases hrun with ⟨hs, hrun⟩ | ⟨hs, hl, hrun⟩ | ⟨hs, hl, hrun⟩ <;> rw [hrun] at h <;>
        simp [mem_do_run_checked, do_run_start, do_run_stop] at h
    · rcases hrun with ⟨hs, hrun⟩ | ⟨hs, hl, hrun⟩ | ⟨hs, hl, hrun⟩ <;> rw [hrun] <;>
        simp [mem_do_run_checked, do_run_start, hr, do_run_open, ho]
    · rcases hrun with ⟨hs, hrun⟩ | ⟨hs, hl, hrun⟩ | ⟨hs, hl, hrun⟩ <;> rw [hrun] at h <;>
        simp [mem_do_run_checked, do_run_start, do_run_stop] at h

/-- C4, at a concrete input: a flush-locked store whose restore fails. -/
theorem do_run_flush_lock_witness :
    action.open_store_coded code.flush_lock ∈
        (do_run failed_restore_environment signalled_executor).trace
    ∧ (do_run failed_restore_environment signalled_executor).result
        = some false :=
  ⟨by decide,
   ((do_run_flush_lock failed_restore_environment signalled_executor (by decide)).2.2 rfl).2.1⟩

/-- C10: a run in which a sink is bad, the store open returns a failure other
than flush-lock, the restore fails, or the store creation fails (`create_store`
or the `check_store_path(true)` before it) returns `false`, and its calls
include neither the construction of the node, nor `node_->start`, nor the wait
on `stopping_`, nor `node_->close`, nor `close_store`. -/
theorem do_run_early_abort (e : environment) (s : executor)
    (h : action.create_log_sink false ∈ (do_run e s).trace
      ∨ action.create_event_sink false ∈ (do_run e s).trace
      ∨ (∃ ec, action.open_store_coded ec ∈ (do_run e s).trace ∧ ec.failed = true
          ∧ ec ≠ code.flush_lock)
      ∨ action.restore_store false ∈ (do_run e s).trace
      ∨ action.check_store_path true false ∈ (do_run e s).trace
      ∨ action.create_store false ∈ (do_run e s).trace) :
    (do_run e s).result = some false
    ∧ action.make_full_node ∉ (do_run e s).trace
    ∧ action.node_start ∉ (do_run e s).trace
    ∧ action.wait ∉ (do_run e s).trace
    ∧ action.node_close ∉ (do_run e s).trace
    ∧ ∀ r, action.close_store r ∉ (do_run e s).trace := by
  rcases do_run_paths e s with ⟨hbad, hrun⟩ | ⟨hb, hc, st, hst, hrun⟩ |
    ⟨hb, hc, st, hst, hrun⟩
  · rw [hrun]
    simp [mem_do_run_sinks]
  · rw [hrun]
    rcases hst with ⟨hd, ho, hf, rfl⟩ | ⟨hd, ho, hr, rfl⟩ | ⟨hd, hct, rfl⟩ |
      ⟨hd, hct, hcs, rfl⟩ <;> simp [mem_do_run_checked]
  · exfalso
    rcases hrun with ⟨hs, hrun⟩ | ⟨hs, hl, hrun⟩ | ⟨hs, hl, hrun⟩ <;> rw [hrun] at h <;>
    rcases hst with ⟨hd, ho, rfl⟩ | ⟨hd, ho, hr, rfl⟩ | ⟨hd, hct, hcs, rfl⟩ <;>
    simp [mem_do_run_checked, do_run_start, do_run_stop, hb, hc, code.failed] at h

/-- C10, at a concrete input: the event sink is bad. -/
theorem do_run_early_abort_witness :
    action.create_event_sink false ∈
        (do_run bad_sink_environment
          signalled_executor).trace
    ∧ (do_run bad_sink_environment
          signalled_executor).result = some false :=
  ⟨by decide,
   (do_run_early_abort bad_sink_environment
      signalled_executor (Or.inr (Or.inl (by decide)))).1⟩


/-! ## The log handler and the wait of do_run -/

/-- The run of `do_run` depends on the executor only through `stopping_` and
the toggle table. -/
theorem do_run_congr (e : environment) (s1 s2 : executor)
    (h : s1.stopping_ = s2.stopping_ ∧ s1.toggle_ = s2.toggle_) :
    do_run e s1 = do_run e s2 := by
  simp [do_run, do_run_ready, h.1, h.2]

/-- C5 as stated fails: on an executor with both promises empty, the handler
processes a failure-coded message of level `fault`, fulfils `stopped_` and ends
its subscription, yet `stopping_`, the promise whose future `do_run` waits on,
is still empty, and the run over a clean store stays blocked in the wait. -/
theorem fault_message_leaves_wait_blocked :
    (log_handler sample_externals sample_executor (code.other 1) levels.fault 0 "x").2
        = Except.ok false
    ∧ (log_handler sample_externals sample_executor (code.other 1) levels.fault 0
        "x").1.stopped_.value = some (code.other 1)
    ∧ (log_handler sample_externals sample_executor (code.other 1) levels.fault 0
        "x").1.stopping_.value = none
    ∧ (do_run clean_environment (log_handler sample_externals sample_executor
        (code.other 1) levels.fault 0 "x").1).result = none
    ∧ (do_run clean_environment (log_handler sample_externals sample_executor
        (code.other 1) levels.fault 0 "x").1).trace.getLast? = some action.wait := by
  have hl : levels.fault < sample_executor.toggle_.length := by decide
  obtain ⟨h1, h2⟩ := log_handler_failed sample_externals sample_executor (code.other 1)
    levels.fault 0 "x" hl rfl
  have h3 := (log_handler_stopping sample_externals sample_executor (code.other 1)
    levels.fault 0 "x").1
  have h4 := do_run_congr clean_environment _ _ (log_handler_stopping sample_externals
    sample_executor (code.other 1) levels.fault 0 "x")
  refine ⟨?_, ?_, ?_, ?_, ?_⟩
  · rw [h2]; rfl
  · rw [h1]; rfl
  · rw [h3]; rfl
  · rw [h4]; decide
  · rw [h4]; decide

/-- C5, amended: the handler never writes `stopping_`, the promise whose future
`do_run` waits on, so handling a message leaves every run of `do_run` as it
was; a run that reached the wait stays blocked in it exactly when `stopping_`
holds no value. What a failure-coded message of a known level fulfils is the
other promise, `stopped_`. -/
theorem log_handler_fulfils_stopped_only (x : externals) (s : executor) (ec : code)
    (level : Nat) (time : Int) (message : String) :
    (log_handler x s ec level time message).1.stopping_ = s.stopping_
    ∧ (∀ e, do_run e (log_handler x s ec level time message).1 = do_run e s)
    ∧ (∀ e, action.wait ∈ (do_run e (log_handler x s ec level time message).1).trace →
        (((do_run e (log_handler x s ec level time message).1).result = none
            ∧ (do_run e (log_handler x s ec level time message).1).raised = none)
          ↔ s.stopping_.value = none))
    ∧ (level < s.toggle_.length → ec.failed = true → s.stopped_.value = none →
        (log_handler x s ec level time message).1.stopped_.value = some ec) := by
  have hst := log_handler_stopping x s ec level time message
  refine ⟨hst.1, fun e => do_run_congr e _ _ hst, ?_, ?_⟩
  · intro e hw
    rw [do_run_congr e _ _ hst] at hw ⊢
    rcases do_run_paths e s with ⟨hbad, hrun⟩ | ⟨hb, hc, st, hst, hrun⟩ |
      ⟨hb, hc, st, hst, hrun⟩
    · rw [hrun] at hw
      simp [mem_do_run_sinks] at hw
    · rw [hrun] at hw
      rcases hst with ⟨hd, ho, hf, rfl⟩ | ⟨hd, ho, hr, rfl⟩ | ⟨hd, hct, rfl⟩ |
        ⟨hd, hct, hcs, rfl⟩ <;> simp [mem_do_run_checked] at hw
    · rcases hrun with ⟨hs, hrun⟩ | ⟨⟨v, hs⟩, hl, hrun⟩ | ⟨⟨v, hs⟩, hl, hrun⟩ <;>
        rw [hrun] <;> simp [hs]
  · intro hl hec hempty
    rw [(log_handler_failed x s ec level time message hl hec).1,
      set_value_empty s.stopped_ ec hempty]

/-- C5, amended, at a concrete input: a failure code at level `fault` on the
sample executor. -/
theorem log_handler_fulfils_stopped_only_witness :
    levels.fault < sample_executor.toggle_.length
    ∧ (log_handler sample_externals sample_executor (code.other 1) levels.fault 0
        "x").1.stopped_.value = some (code.other 1) :=
  ⟨by decide, (log_handler_fulfils_stopped_only sample_externals sample_executor
    (code.other 1) levels.fault 0 "x").2.2.2 (by decide) rfl rfl⟩

/-! ## Properties of protocol_observer -/

namespace protocol_observer

/-- C9 as stated fails: on an observer that is not stopped, `handle_event` with
`chase::suspend` requests the stop with `error::suspended_channel` but returns
`true`, which keeps the subscription. -/
theorem suspend_keeps_subscription :
    handle_event ⟨false, []⟩ code.success chase.suspend 0
      = (⟨false, [code.suspended_channel]⟩, true) := by
  decide

/-- C9, amended: on an observer that is not stopped, `handle_event` with
`chase::suspend` requests the channel stop with reason
`error::suspended_channel`, once, and returns `true` (the subscription is kept). -/
theorem handle_event_suspend (p : protocol_observer) (ec : code) (value : Nat)
    (h : p.stopped_ = false) :
    handle_event p ec chase.suspend value
      = ({ p with stops := p.stops ++ [code.suspended_channel] }, true) := by
  simp [handle_event, h, stop]

/-- C9, amended, at a concrete input. -/
theorem handle_event_suspend_witness :
    (handle_event ⟨false, [code.other 3]⟩ (code.other 5) chase.suspend 9).2 = true
    ∧ (handle_event ⟨false, [code.other 3]⟩ (code.other 5) chase.suspend 9).1.stops
        = [code.other 3, code.suspended_channel] :=
  ⟨congrArg Prod.snd (handle_event_suspend ⟨false, [code.other 3]⟩ (code.other 5) 9 rfl),
   congrArg (fun r => r.1.stops)
     (handle_event_suspend ⟨false, [code.other 3]⟩ (code.other 5) 9 rfl)⟩

end protocol_observer


/-! ## do_run: sink failure and store creation -/

/-- C11: when the log sink or the event sink is bad, `do_run` returns `false`
after the failure message alone: its calls include no `check_store_path`, no
`open_store_coded`, no `restore_store`, no `create_store`, and none of
`subscribe_log`, `subscribe_events`, `subscribe_capture`. -/
theorem do_run_bad_sink (e : environment) (s : executor)
    (h : e.create_log_sink = false ∨ e.create_event_sink = false) :
    (do_run e s).result = some false
    ∧ (do_run e s).trace
        = do_run_sinks e ++ [action.logger text.BN_LOG_INITIALIZE_FAILURE]
    ∧ (∀ a r, action.check_store_path a r ∉ (do_run e s).trace)
    ∧ (∀ ec, action.open_store_coded ec ∉ (do_run e s).trace)
    ∧ (∀ r, action.restore_store r ∉ (do_run e s).trace)
    ∧ (∀ r, action.create_store r ∉ (do_run e s).trace)
    ∧ action.subscribe_log ∉ (do_run e s).trace
    ∧ action.subscribe_events ∉ (do_run e s).trace
    ∧ action.subscribe_capture ∉ (do_run e s).trace := by
  rcases do_run_paths e s with ⟨_, hrun⟩ | ⟨hb, hc, _⟩ | ⟨hb, hc, _⟩
  · rw [hrun]
    simp [mem_do_run_sinks]
  · rcases h with h | h
    · rw [hb] at h; cases h
    · rw [hc] at h; cases h
  · rcases h with h | h
    · rw [hb] at h; cases h
    · rw [hc] at h; cases h

/-- C11, at a concrete input: the event sink is bad. -/
theorem do_run_bad_sink_witness :
    (bad_sink_environment.create_log_sink = false
      ∨ bad_sink_environment.create_event_sink = false)
    ∧ action.subscribe_log ∉ (do_run bad_sink_environment sample_executor).trace :=
  ⟨Or.inr rfl,
   (do_run_bad_sink bad_sink_environment sample_executor (Or.inr rfl)).2.2.2.2.2.2.1⟩

/-- C12 as stated fails: when `check_store_path()` and then `check_store_path(true)`
both answer `false`, `do_run` returns `false` and `create_store` is not called. -/
theorem no_path_skips_create_store :
    action.check_store_path false false ∈ (do_run no_path_environment sample_executor).trace
    ∧ action.create_store true ∉ (do_run no_path_environment sample_executor).trace
    ∧ action.create_store false ∉ (do_run no_path_environment sample_executor).trace
    ∧ (do_run no_path_environment sample_executor).result = some false := by
  decide

/-- C12, amended: when `check_store_path()` answered `false`, `do_run` calls
`check_store_path(true)`; if that fails it returns `false` without calling
`create_store`; if it succeeds `create_store` is called, and then a failed
creation makes `do_run` return `false` with no network start, while a successful
creation is followed by `node_->start`. -/
theorem do_run_no_store (e : environment) (s : executor)
    (h : action.check_store_path false false ∈ (do_run e s).trace) :
    action.check_store_path true e.check_store_path_true ∈ (do_run e s).trace
    ∧ (e.check_store_path_true = false →
        (do_run e s).result = some false
        ∧ ∀ r, action.create_store r ∉ (do_run e s).trace)
    ∧ (e.check_store_path_true = true →
        action.create_store e.create_store ∈ (do_run e s).trace
        ∧ (e.create_store = false →
            (do_run e s).result = some false ∧ action.node_start ∉ (do_run e s).trace)
        ∧ (e.create_store = true → action.node_start ∈ (do_run e s).trace)) := by
  rcases do_run_paths e s with ⟨hbad, hrun⟩ | ⟨hb, hc, st, hst, hrun⟩ |
    ⟨hb, hc, st, hst, hrun⟩
  · rw [hrun] at h
    simp [mem_do_run_sinks] at h
  · rw [hrun] at h ⊢
    rcases hst with ⟨hd, ho, hf, rfl⟩ | ⟨hd, ho, hr, rfl⟩ | ⟨hd, hct, rfl⟩ |
      ⟨hd, hct, hcs, rfl⟩
    · simp [mem_do_run_checked, hd] at h
    · simp [mem_do_run_checked, hd] at h
    · simp [mem_do_run_checked, hct]
    · simp [mem_do_run_checked, hct, hcs]
  · rcases hst with ⟨hd, ho, rfl⟩ | ⟨hd, ho, hr, rfl⟩ | ⟨hd, hct, hcs, rfl⟩
    · rcases hrun with ⟨hs, hrun⟩ | ⟨hs, hl, hrun⟩ | ⟨hs, hl, hrun⟩ <;> rw [hrun] at h <;>
        simp [mem_do_run_checked, do_run_start, do_run_stop, hd] at h
    · rcases hrun with ⟨hs, hrun⟩ | ⟨hs, hl, hrun⟩ | ⟨hs, hl, hrun⟩ <;> rw [hrun] at h <;>
        simp [mem_do_run_checked, do_run_start, do_run_stop, hd] at h
    · rcases hrun with ⟨hs, hrun⟩ | ⟨hs, hl, hrun⟩ | ⟨hs, hl, hrun⟩ <;> rw [hrun] <;>
        simp [mem_do_run_checked, do_run_start, hct, hcs]

/-- C12, amended, at a concrete input: no store is found and one is created. -/
theorem do_run_no_store_witness :
    action.check_store_path false false ∈ (do_run create_environment sample_executor).trace
    ∧ action.node_start ∈ (do_run create_environment sample_executor).trace :=
  ⟨by decide,
   ((do_run_no_store create_environment sample_executor (by decide)).2.2 rfl).2.2 rfl⟩


/-! ## Properties of the log handler: what is written -/

/-- C14 as stated fails: on a fault message the log sink receives the message
line and the footer line, and the console receives those two and the
termination line; the two texts differ. -/
theorem fault_lines_differ :
    (log_handler sample_externals sample_executor (code.other 1) levels.fault 0 "x").1.sink
        = "0.6 x\n0.6 ====\n"
    ∧ (log_handler sample_externals sample_executor (code.other 1) levels.fault 0
        "x").1.output_ = "0.6 x\n0.6 ====\n0.6 Terminate\n"
    ∧ (log_handler sample_externals sample_executor (code.other 1) levels.fault 0
        "x").1.sink
      ≠ (log_handler sample_externals sample_executor (code.other 1) levels.fault 0
        "x").1.output_ := by
  decide

/-- C14, amended: on a fault message (known level, failure code) the handler
writes the message line and the footer line to the log sink and to the console,
and the termination line to the console only; each line starts with
`<zulu-time>.<level> ` and ends with a newline. -/
theorem log_handler_fault_lines (x : externals) (s : executor) (ec : code) (level : Nat)
    (time : Int) (message : String) (hl : level < s.toggle_.length)
    (hec : ec.failed = true) :
    (log_handler x s ec level time message).1.sink
        = s.sink ++ (x.format_zulu_time time ++ "." ++ x.serialize level ++ " " ++ message
            ++ "\n")
          ++ (x.format_zulu_time time ++ "." ++ x.serialize level ++ " "
            ++ x.BN_NODE_FOOTER ++ "\n")
    ∧ (log_handler x s ec level time message).1.output_
        = s.output_ ++ (x.format_zulu_time time ++ "." ++ x.serialize level ++ " " ++ message
            ++ "\n")
          ++ (x.format_zulu_time time ++ "." ++ x.serialize level ++ " "
            ++ x.BN_NODE_FOOTER ++ "\n")
          ++ (x.format_zulu_time time ++ "." ++ x.serialize level ++ " "
            ++ x.BN_NODE_TERMINATE ++ "\n") := by
  have hnot : ¬ s.toggle_.length ≤ level := by omega
  simp only [log_handler, ge_iff_le, hnot, if_false, not_selected_failed s ec level hec, hec,
    if_true]
  cases hp : s.stopped_.value <;> simp [promise.set_value, hp]


/-- C14, amended, at a concrete input: a failure code at level `fault`. -/
theorem log_handler_fault_lines_witness :
    levels.fault < sample_executor.toggle_.length
    ∧ (log_handler sample_externals sample_executor (code.other 1) levels.fault 0
        "x").1.sink
      = sample_executor.sink
        ++ (sample_externals.format_zulu_time 0 ++ "." ++ sample_externals.serialize levels.fault
            ++ " " ++ "x" ++ "\n")
        ++ (sample_externals.format_zulu_time 0 ++ "." ++ sample_externals.serialize levels.fault
            ++ " " ++ sample_externals.BN_NODE_FOOTER ++ "\n") :=
  ⟨by decide, (log_handler_fault_lines sample_externals sample_executor (code.other 1)
    levels.fault 0 "x" (by decide) rfl).1⟩

/-- C19: a message of a known, enabled level that carries no failure code makes
the handler append exactly `<zulu-time(time)>.<level> <message>` to the log sink
and to the console, change nothing else, and return `true`. -/
theorem log_handler_writes_enabled (x : externals) (s : executor) (ec : code) (level : Nat)
    (time : Int) (message : String) (hec : ec.failed = false)
    (hon : s.toggle_[level]? = some true) :
    log_handler x s ec level time message
      = ({ s with
            sink := s.sink
              ++ (x.format_zulu_time time ++ "." ++ x.serialize level ++ " " ++ message),
            output_ := s.output_
              ++ (x.format_zulu_time time ++ "." ++ x.serialize level ++ " " ++ message) },
          Except.ok true) := by
  have hl : level < s.toggle_.length := by
    by_contra hn
    rw [List.getElem?_eq_none (by omega)] at hon
    cases hon
  have hnot : ¬ s.toggle_.length ≤ level := by omega
  simp [log_handler, hnot, not_selected, hec, at_, hon]

/-- C19, at a concrete input: a success code at level `news`, which is enabled. -/
theorem log_handler_writes_enabled_witness :
    sample_executor.toggle_[levels.news]? = some true
    ∧ (log_handler sample_externals sample_executor code.success levels.news 0 "x").1.sink
        = "0.1 x"
    ∧ (log_handler sample_externals sample_executor code.success levels.news 0 "x").1.output_
        = "0.1 x" :=
  ⟨by decide,
   (congrArg (fun r => r.1.sink) (log_handler_writes_enabled sample_externals sample_executor
      code.success levels.news 0 "x" rfl (by decide))).trans (by decide),
   (congrArg (fun r => r.1.output_) (log_handler_writes_enabled sample_externals
      sample_executor code.success levels.news 0 "x" rfl (by decide))).trans (by decide)⟩

/-- C20: a message of a known level that is disabled in the toggle table and that
carries no failure code leaves the executor as it was (nothing is written to
either sink, `stopped_` is not fulfilled), and the handler returns `true`. -/
theorem log_handler_drops_disabled (x : externals) (s : executor) (ec : code) (level : Nat)
    (time : Int) (message : String) (hec : ec.failed = false)
    (hoff : s.toggle_[level]? = some false) :
    log_handler x s ec level time message = (s, Except.ok true) := by
  have hl : level < s.toggle_.length := by
    by_contra hn
    rw [List.getElem?_eq_none (by omega)] at hoff
    cases hoff
  have hnot : ¬ s.toggle_.length ≤ level := by omega
  simp [log_handler, hnot, not_selected, hec, at_, hoff]

/-- C20, at a concrete input: a success code at level `news`, which is disabled. -/
theorem log_handler_drops_disabled_witness :
    quiet_executor.toggle_[levels.news]? = some false
    ∧ log_handler sample_externals quiet_executor code.success levels.news 0 "x"
        = (quiet_executor, Except.ok true) :=
  ⟨by decide, log_handler_drops_disabled sample_externals quiet_executor code.success
    levels.news 0 "x" rfl (by decide)⟩


/-! ## Properties of protocol_observer: events, start, completion, stopping -/

namespace protocol_observer

/-- C15: `handle_event` returns `false` and leaves the observer as it was (no
stop is requested) when the protocol is already stopped, whatever the event, and
when the event is `chase::stop`; on an observer that is not stopped, every event
other than `suspend` and `stop` gives `true`, again with no stop requested. -/
theorem handle_event_stop_and_others (p : protocol_observer) (ec : code) (event_ : chase)
    (value : Nat) :
    (p.stopped_ = true → handle_event p ec event_ value = (p, false))
    ∧ handle_event p ec chase.stop value = (p, false)
    ∧ (p.stopped_ = false → event_ ≠ chase.suspend → event_ ≠ chase.stop →
        handle_event p ec event_ value = (p, true)) := by
  refine ⟨?_, ?_, ?_⟩
  · intro h
    simp [handle_event, h]
  · cases h : p.stopped_ <;> simp [handle_event, h]
  · intro h hs ht
    cases event_ with
    | suspend => exact absurd rfl hs
    | stop => exact absurd rfl ht
    | other n => simp [handle_event, h]

/-- C15, at concrete inputs: a stopped observer given `suspend`, and a running
one given another event. -/
theorem handle_event_stop_and_others_witness :
    handle_event ⟨true, [code.other 3]⟩ code.success chase.suspend 0
        = (⟨true, [code.other 3]⟩, false)
    ∧ handle_event ⟨false, []⟩ code.success (chase.other 4) 0 = (⟨false, []⟩, true) :=
  ⟨(handle_event_stop_and_others ⟨true, [code.other 3]⟩ code.success chase.suspend 0).1 rfl,
   (handle_event_stop_and_others ⟨false, []⟩ code.success (chase.other 4) 0).2.2 rfl
      (by decide) (by decide)⟩

theorem start_started (p : state) (h : p.started_ = true) : start p = (p, []) := by
  simp [start, h]

theorem start_makes_started (p : state) : (start p).1.started_ = true := by
  cases h : p.started_ <;> simp [start, h, protocol_start, subscribe_events]

/-- C16: `start` on a started observer makes no base call and leaves the state
as it was; on an observer that is not started it subscribes to the bus and then
calls the base start, after which the observer is started and subscribed; a
second `start` is a no-op, and any number `n ≥ 1` of consecutive `start` calls
has the effect of one, with exactly one `subscribe_events`. -/
theorem start_idempotent (p : state) :
    (p.started_ = true → start p = (p, []))
    ∧ (p.started_ = false →
        start p = ({ p with started_ := true, subscribed_ := true },
          [base_call.subscribe_events, base_call.start]))
    ∧ start (start p).1 = ((start p).1, [])
    ∧ (∀ n, 1 ≤ n → p.started_ = false →
        starts n p = start p
        ∧ (starts n p).2.count base_call.subscribe_events = 1) := by
  have hrest : ∀ n (q : state), q.started_ = true → starts n q = (q, []) := by
    intro n
    induction n with
    | zero => intro q _; rfl
    | succ k ih =>
      intro q hq
      simp [starts, start_started q hq, ih q hq]
  refine ⟨start_started p, ?_, start_started _ (start_makes_started p), ?_⟩
  · intro h
    simp [start, h, protocol_start, subscribe_events]
  · intro n hn h
    obtain ⟨k, rfl⟩ : ∃ k, n = k + 1 := ⟨n - 1, by omega⟩
    have hk := hrest k (start p).1 (start_makes_started p)
    have heq : starts (k + 1) p = start p := by
      simp [starts, hk]
    rw [heq]
    refine ⟨rfl, ?_⟩
    simp [start, h]

/-- C16, at a concrete input: three consecutive `start` calls on an idle observer. -/
theorem start_idempotent_witness :
    starts 3 idle = start idle
    ∧ (starts 3 idle).2.count base_call.subscribe_events = 1 :=
  (start_idempotent idle).2.2.2 3 (by decide) rfl

/-- C17: `stopping(ec)` calls `unsubscribe_events` first and the base stopping
after it, whatever the state, and leaves the observer unsubscribed;
`do_handle_complete(ec)` calls `unsubscribe_events` exactly when `stopped(ec)`
holds, and otherwise does nothing; on a stopped channel, running the two in
either order leaves the observer unsubscribed, in the state that the first of
them alone produces. -/
theorem stopping_and_complete (status : code → Bool) (p : state) (ec ec2 : code) :
    (stopping p ec).2 = [base_call.unsubscribe_events, base_call.stopping ec]
    ∧ (stopping p ec).1.subscribed_ = false
    ∧ (stopped status p ec = true →
        do_handle_complete status p ec
          = (unsubscribe_events p, [base_call.unsubscribe_events]))
    ∧ (stopped status p ec = false → do_handle_complete status p ec = (p, []))
    ∧ (p.stopped_ = true →
        (do_handle_complete status (stopping p ec).1 ec2).1 = (stopping p ec).1
        ∧ (do_handle_complete status (stopping p ec).1 ec2).1.subscribed_ = false
        ∧ (stopping (do_handle_complete status p ec2).1 ec).1
            = (do_handle_complete status p ec2).1
        ∧ (stopping (do_handle_complete status p ec2).1 ec).1.subscribed_ = false) := by
  refine ⟨rfl, rfl, ?_, ?_, ?_⟩
  · intro h
    simp [do_handle_complete, h]
  · intro h
    simp [do_handle_complete, h]
  · intro h
    simp [do_handle_complete, stopping, stopped, protocol_stopping, unsubscribe_events, h]

/-- C17, at a concrete input: a subscribed observer whose channel has stopped. -/
theorem stopping_and_complete_witness :
    (do_handle_complete (fun _ => false) (stopping halted (code.other 1)).1 code.success).1
        = (stopping halted (code.other 1)).1
    ∧ (stopping (do_handle_complete (fun _ => false) halted code.success).1
        (code.other 1)).1.subscribed_ = false :=
  ⟨((stopping_and_complete (fun _ => false) halted (code.other 1) code.success).2.2.2.2
      rfl).1,
   ((stopping_and_complete (fun _ => false) halted (code.other 1) code.success).2.2.2.2
      rfl).2.2.2⟩

end protocol_observer

/-! ## Properties of protocol_header_in_70012 -/

namespace protocol_header_in_70012

theorem complete_subscribed (p : protocol_header_in_70012) (h : p.subscribed_ = true) :
    complete p = p := by
  simp [complete, h]

/-- C13: on a protocol that is not yet subscribed, `N ≥ 1` calls of `complete`
send `send_headers` exactly once, on the first call, and leave `subscribed_` true:
the state after `N` calls is the state after one, and a second call changes
nothing. -/
theorem complete_sends_once (p : protocol_header_in_70012) (N : Nat) (hN : 1 ≤ N)
    (hp : p.subscribed_ = false) :
    (complete p).sent = p.sent ++ [messages.send_headers]
    ∧ Nat.iterate complete N p = complete p
    ∧ (Nat.iterate complete N p).sent = p.sent ++ [messages.send_headers]
    ∧ (Nat.iterate complete N p).subscribed_ = true
    ∧ complete (complete p) = complete p
    ∧ (complete (complete p)).sent = (complete p).sent := by
  have h1 : (complete p).subscribed_ = true := by simp [complete, hp]
  have h2 : (complete p).sent = p.sent ++ [messages.send_headers] := by simp [complete, hp]
  have h3 : complete (complete p) = complete p := complete_subscribed _ h1
  have h4 : Nat.iterate complete N p = complete p := by
    obtain ⟨k, rfl⟩ : ∃ k, N = k + 1 := ⟨N - 1, by omega⟩
    rw [Function.iterate_succ_apply, Function.iterate_fixed h3]
  refine ⟨h2, h4, ?_, ?_, h3, ?_⟩
  · rw [h4, h2]
  · rw [h4, h1]
  · rw [h3]

/-- C13, at a concrete input: five calls of `complete` on a fresh protocol. -/
theorem complete_sends_once_witness :
    (Nat.iterate complete 5 fresh).sent = [messages.send_headers]
    ∧ (Nat.iterate complete 5 fresh).subscribed_ = true :=
  ⟨(complete_sends_once fresh 5 (by decide) rfl).2.2.1,
   (complete_sends_once fresh 5 (by decide) rfl).2.2.2.1⟩

end protocol_header_in_70012

/-! ## channel_peer: the announcement sequence -/

namespace channel_peer

/-- C18: `set_announced h` makes the announcement sequence the prior sequence
followed by `h`, whether or not `h` was already in it: the length grows by
exactly one, `h` is the last element, the prior entries keep their positions,
and the number of occurrences of `h` grows by one. -/
theorem set_announced_appends (c : channel_peer) (h : hash_digest) :
    (set_announced c h).announced_ = c.announced_ ++ [h]
    ∧ (set_announced c h).announced_.length = c.announced_.length + 1
    ∧ (set_announced c h).announced_.getLast? = some h
    ∧ (set_announced c h).announced_.take c.announced_.length = c.announced_
    ∧ (∀ i, i < c.announced_.length →
        (set_announced c h).announced_[i]? = c.announced_[i]?)
    ∧ (set_announced c h).announced_.count h = c.announced_.count h + 1 := by
  refine ⟨rfl, ?_, ?_, ?_, ?_, ?_⟩
  · simp [set_announced]
  · simp [set_announced]
  · simp [set_announced]
  · intro i hi
    simp [set_announced, List.getElem?_append_left hi]
  · simp [set_announced]

/-- C18, at a concrete input: a hash that is already in the sequence is appended
again. -/
theorem set_announced_appends_witness :
    (set_announced ⟨[7, 9]⟩ 7).announced_ = [7, 9, 7]
    ∧ (set_announced ⟨[7, 9]⟩ 7).announced_[1]? = some 9 :=
  ⟨(set_announced_appends ⟨[7, 9]⟩ 7).1,
   ((set_announced_appends ⟨[7, 9]⟩ 7).2.2.2.2.1 1 (by decide)).trans rfl⟩

end channel_peer


/-! ## do_run: the call of stopper -/

theorem stopper_not_mem_checked (e : environment) (m : text) :
    action.stopper m ∉ do_run_checked e := by
  simp [mem_do_run_checked]

/-- C21: in every run of `do_run` that returns with both sinks good (after a
clean or a failed `close_store`, or after an abort in the store block),
`stopper(BN_NODE_STOPPED)` occurs exactly once among the calls, it is the last
call, and `stopper` is called with no other message; in a run with a bad sink
`stopper` is not called at all, and neither is it in a run that does not return
(one that stays blocked in the wait on `stopping_`). -/
theorem do_run_stopper_once_last (e : environment) (s : executor) :
    (∀ b, (do_run e s).result = some b →
        e.create_log_sink = true → e.create_event_sink = true →
        (do_run e s).trace.count (action.stopper text.BN_NODE_STOPPED) = 1
        ∧ (do_run e s).trace.getLast? = some (action.stopper text.BN_NODE_STOPPED)
        ∧ ∀ m, action.stopper m ∈ (do_run e s).trace → m = text.BN_NODE_STOPPED)
    ∧ ((e.create_log_sink = false ∨ e.create_event_sink = false) →
        ∀ m, action.stopper m ∉ (do_run e s).trace)
    ∧ ((do_run e s).result = none → ∀ m, action.stopper m ∉ (do_run e s).trace) := by
  have hcount := List.count_eq_zero.mpr (stopper_not_mem_checked e text.BN_NODE_STOPPED)
  rcases do_run_paths e s with ⟨hbad, hrun⟩ | ⟨hb, hc, st, hst, hrun⟩ |
    ⟨hb, hc, st, hst, hrun⟩
  · constructor
    · intro b _ hb hc
      rcases hbad with h | h
      · rw [hb] at h; cases h
      · rw [hc] at h; cases h
    · constructor
      · intro _ m
        rw [hrun]
        simp [mem_do_run_sinks]
      · intro hres
        rw [hrun] at hres
        cases hres
  · constructor
    · intro b _ _ _
      rw [hrun]
      rcases hst with ⟨hd, ho, hf, rfl⟩ | ⟨hd, ho, hr, rfl⟩ | ⟨hd, hct, rfl⟩ |
        ⟨hd, hct, hcs, rfl⟩ <;>
        simp [List.count_append, hcount, List.count_cons, mem_do_run_checked,
          List.getLast?_append]
    · constructor
      · intro h
        rcases h with h | h
        · rw [hb] at h; cases h
        · rw [hc] at h; cases h
      · intro hres
        rw [hrun] at hres
        cases hres
  · constructor
    · intro b hres _ _
      rcases hrun with ⟨hs, hrun⟩ | ⟨hs, hl, hrun⟩ | ⟨hs, hl, hrun⟩
      · rw [hrun] at hres; cases hres
      · rw [hrun] at hres; cases hres
      · rw [hrun]
        rcases hst with ⟨hd, ho, rfl⟩ | ⟨hd, ho, hr, rfl⟩ | ⟨hd, hct, hcs, rfl⟩ <;>
          simp [List.count_append, hcount, List.count_cons, mem_do_run_checked,
            List.getLast?_append, do_run_start, do_run_stop]
    · constructor
      · intro h
        rcases h with h | h
        · rw [hb] at h; cases h
        · rw [hc] at h; cases h
      · intro hres m
        rcases hrun with ⟨hs, hrun⟩ | ⟨hs, hl, hrun⟩ | ⟨hs, hl, hrun⟩
        · rw [hrun]
          rcases hst with ⟨hd, ho, rfl⟩ | ⟨hd, ho, hr, rfl⟩ | ⟨hd, hct, hcs, rfl⟩ <;>
            simp [mem_do_run_checked, do_run_start]
        · rw [hrun]
          rcases hst with ⟨hd, ho, rfl⟩ | ⟨hd, ho, hr, rfl⟩ | ⟨hd, hct, hcs, rfl⟩ <;>
            simp [mem_do_run_checked, do_run_start]
        · rw [hrun] at hres
          cases hres

/-- C21, at concrete inputs: the clean run, and the run with a bad event sink. -/
theorem do_run_stopper_once_last_witness :
    (do_run clean_environment signalled_executor).result = some true
    ∧ (do_run clean_environment signalled_executor).trace.count
        (action.stopper text.BN_NODE_STOPPED) = 1
    ∧ (do_run clean_environment signalled_executor).trace.getLast?
        = some (action.stopper text.BN_NODE_STOPPED)
    ∧ action.stopper text.BN_NODE_STOPPED
        ∉ (do_run bad_sink_environment signalled_executor).trace :=
  ⟨by decide,
   ((do_run_stopper_once_last clean_environment signalled_executor).1 true (by decide)
      rfl rfl).1,
   ((do_run_stopper_once_last clean_environment signalled_executor).1 true (by decide)
      rfl rfl).2.1,
   (do_run_stopper_once_last bad_sink_environment signalled_executor).2.1 (Or.inr rfl)
      text.BN_NODE_STOPPED⟩

end node
end libbitcoin
